import Mathlib

/-!
Verification development for the QA-evaluation repository.

Shallow embedding of the four algorithmic source files:

* `evaluate.py`    — evaluation runner (retry loop, answer post-processing);
* `calculate_mcnemar.py` — flexible paired-outcome comparator (truncation + warnings);
* `calculate_b_c.py`     — minimal paired-outcome comparator (strict alignment);
* `pareto_analysis.py`   — cost/accuracy Pareto frontier engine.

Text is modelled as `List Char`; Python's float arithmetic on the statistic
is modelled exactly over `ℚ`; the chi-squared(1) tail probability used for
the p-value is modelled over `ℝ` by integrating the chi-squared(1) density.
Side effects (printed warnings) are modelled as explicit warning lists;
raised exceptions are modelled with `Except`.
-/

namespace Evaluate

/-- Whitespace characters removed by Python `str.strip` (ASCII range),
as used on model answers in `evaluate.py` lines 127 and 129. -/
def isPySpace (ch : Char) : Bool :=
  ch = ' ' || ch = '\t' || ch = '\n' || ch = '\r' || ch = '\x0B' || ch = '\x0C'

/-- Python `str.strip`: drop leading and trailing whitespace. -/
def pyStrip (s : List Char) : List Char :=
  ((s.dropWhile isPySpace).reverse.dropWhile isPySpace).reverse

/-- Opening marker of the reasoning span in `THINK_REGEX` (`evaluate.py` line 28). -/
def tagOpen : List Char := "<think>".data

/-- Closing marker of the reasoning span in `THINK_REGEX` (`evaluate.py` line 28). -/
def tagClose : List Char := "</think>".data

/-- Index of the leftmost occurrence of `pat` in `s` (`none` if `pat` never occurs). -/
def findFirst (pat : List Char) : List Char → Option Nat
  | [] => if pat.isEmpty then some 0 else none
  | ch :: rest =>
    if pat.isPrefixOf (ch :: rest) then some 0
    else (findFirst pat rest).map (· + 1)

/-- Greatest index `i ≤ n` at which `pat` occurs in `s` (`none` if there is none). -/
def findLastLe (pat s : List Char) : Nat → Option Nat
  | 0 => if pat.isPrefixOf s then some 0 else none
  | n + 1 =>
    if pat.isPrefixOf (s.drop (n + 1)) then some (n + 1) else findLastLe pat s n

/-- Model of `re.sub(THINK_REGEX, "", s)` for `THINK_REGEX = <think>.*</think>\n?` with
DOTALL (`evaluate.py` lines 28 and 127).  The `.*` is greedy, so the single
leftmost match runs from the first occurrence of the opening marker to the end
of the last occurrence of the closing marker, plus one immediately following
newline if present; everything in between is deleted.  If the first opening
marker has no closing marker at or after its end, the pattern does not match
and the text is returned unchanged.  (After the greedy match no closing marker
remains, so `re.sub` performs at most this one substitution.) -/
def stripThinkSub (s : List Char) : List Char :=
  match findFirst tagOpen s with
  | none => s
  | some i =>
    match findLastLe tagClose s s.length with
    | none => s
    | some j =>
      if i + tagOpen.length ≤ j then
        let e := j + tagClose.length
        let e' := if (s.drop e).head? = some '\n' then e + 1 else e
        s.take i ++ s.drop e'
      else s

/-- Post-processing of a successful backend response (`evaluate.py` lines 126-129):
strip the reasoning span when enabled, then `str.strip` the result. -/
def postprocessAnswer (stripThink : Bool) (raw : List Char) : List Char :=
  if stripThink then pyStrip (stripThinkSub raw) else pyStrip raw

/-- Output record shape produced by the runner (`evaluate.py` lines 142-149). -/
structure AnswerRecord where
  question_num : Nat
  question : List Char
  model_ans : List Char
  correct_ans : List Char
deriving DecidableEq

/-- Failure sentinel recorded when every attempt for a question failed
(`evaluate.py` line 137, the `last_exc` branch). -/
def errorSentinel (cause : List Char) : List Char := "ERROR: ".data ++ cause

/-- Retry loop for one question (`evaluate.py` lines 115-137).  `ask a` is the
backend call on attempt number `a`; the `for ... else` clause records the
failure sentinel built from the last exception once the attempt list is
exhausted. -/
def attemptAnswer (ask : Nat → Except (List Char) (List Char)) (stripThink : Bool) :
    List Nat → Option (List Char) → List Char
  | [], lastExc =>
    match lastExc with
    | some cause => errorSentinel cause
    | none => "ERROR".data
  | a :: rest, _ =>
    match ask a with
    | .ok raw => postprocessAnswer stripThink raw
    | .error cause => attemptAnswer ask stripThink rest (some cause)

/-- Answer recorded for one question: attempts `1, …, maxRetries` as in
`for attempt in range(1, config.max_retries + 1)` (`evaluate.py` line 116). -/
def answerFor (ask : Nat → Except (List Char) (List Char)) (stripThink : Bool)
    (maxRetries : Nat) : List Char :=
  attemptAnswer ask stripThink (List.range' 1 maxRetries) none

/-- Main loop of `run_eval` (`evaluate.py` lines 110-149), with the running
index made explicit.  `backend q a` models the `client.chat` call for question
index `q` on attempt `a`: `.ok` is the response text, `.error` the exception. -/
def run_eval_go (backend : Nat → Nat → Except (List Char) (List Char))
    (stripThink : Bool) (maxRetries : Nat) :
    Nat → List (List Char × List Char) → List AnswerRecord
  | _, [] => []
  | idx, (q, refAns) :: rest =>
    { question_num := idx
      question := q
      model_ans := answerFor (backend idx) stripThink maxRetries
      correct_ans := refAns } :: run_eval_go backend stripThink maxRetries (idx + 1) rest

/-- Model of `run_eval` (`evaluate.py` lines 99-163) restricted to its algorithmic
content: the ordered list of answer records over the enumerated QA pairs. -/
def run_eval (backend : Nat → Nat → Except (List Char) (List Char))
    (stripThink : Bool) (maxRetries : Nat)
    (pairs : List (List Char × List Char)) : List AnswerRecord :=
  run_eval_go backend stripThink maxRetries 0 pairs

/-- A text neither starts nor ends with Python whitespace. -/
def noSurroundingWS (s : List Char) : Bool :=
  (match s.head? with
   | some ch => !isPySpace ch
   | none => true) &&
  (match s.getLast? with
   | some ch => !isPySpace ch
   | none => true)

theorem head?_dropWhile_not (p : Char → Bool) :
    ∀ (l : List Char) (ch : Char), (l.dropWhile p).head? = some ch → p ch = false := by
  intro l
  induction l with
  | nil => intro ch h; simp [List.dropWhile] at h
  | cons x xs ih =>
    intro ch h
    by_cases hx : p x = true
    · rw [List.dropWhile_cons_of_pos hx] at h
      exact ih ch h
    · rw [List.dropWhile_cons_of_neg hx] at h
      simp at h
      rw [← h]
      simpa using hx

theorem getLast?_cons_ne_nil {α : Type _} (x : α) (xs : List α) (h : xs ≠ []) :
    (x :: xs).getLast? = xs.getLast? := by
  cases xs with
  | nil => exact absurd rfl h
  | cons y ys => rfl

theorem getLast?_dropWhile (p : Char → Bool) :
    ∀ (l : List Char), l.dropWhile p ≠ [] → (l.dropWhile p).getLast? = l.getLast? := by
  intro l
  induction l with
  | nil => intro h; simp [List.dropWhile] at h
  | cons x xs ih =>
    intro h
    by_cases hx : p x = true
    · rw [List.dropWhile_cons_of_pos hx] at h ⊢
      rw [ih h]
      have hxs : xs ≠ [] := by
        intro hn
        apply h
        simp [hn, List.dropWhile]
      rw [getLast?_cons_ne_nil x xs hxs]
    · rw [List.dropWhile_cons_of_neg hx]

theorem pyStrip_noSurroundingWS (s : List Char) : noSurroundingWS (pyStrip s) = true := by
  unfold pyStrip noSurroundingWS
  set A := s.dropWhile isPySpace with hA
  set B := A.reverse.dropWhile isPySpace with hB
  rcases hBe : B with _ | ⟨b0, brest⟩
  · simp
  · rw [← hBe]
    have hBne : B ≠ [] := by rw [hBe]; simp
    rw [Bool.and_eq_true]
    constructor
    · -- head of reverse B is the last of B, which is the last of A.reverse, i.e. head of A
      rcases hh : B.reverse.head? with _ | ch
      · simp
      · have h1 : B.getLast? = some ch := by
          rw [← List.head?_reverse]; exact hh
        have h2 : A.reverse.getLast? = some ch := by
          rw [← getLast?_dropWhile isPySpace A.reverse (hB ▸ hBne)]
          rw [← hB]; exact h1
        have h3 : A.head? = some ch := by
          rw [← List.head?_reverse] at h2
          simpa using h2
        have := head?_dropWhile_not isPySpace s ch (hA ▸ h3)
        simp [this]
    · rcases hl : B.reverse.getLast? with _ | ch
      · simp
      · have h1 : B.head? = some ch := by
          rw [← List.head?_reverse] at hl
          simpa using hl
        have := head?_dropWhile_not isPySpace A.reverse ch (hB ▸ h1)
        simp [this]

/-- Claim C10: on every successful backend response, the recorded model answer
is stripped of leading and trailing whitespace, whether or not the
reasoning-strip rule is enabled; no successfully answered record carries
surrounding whitespace. -/
theorem C10_answer_stripped (stripThink : Bool) (raw : List Char) :
    noSurroundingWS (postprocessAnswer stripThink raw) = true := by
  unfold postprocessAnswer
  by_cases h : stripThink
  · simp only [h, if_true]
    exact pyStrip_noSurroundingWS _
  · simp only [h, if_false]
    exact pyStrip_noSurroundingWS _

theorem run_eval_go_length (backend : Nat → Nat → Except (List Char) (List Char))
    (stripThink : Bool) (maxRetries : Nat) :
    ∀ (pairs : List (List Char × List Char)) (idx : Nat),
      (run_eval_go backend stripThink maxRetries idx pairs).length = pairs.length := by
  intro pairs
  induction pairs with
  | nil => intro idx; rfl
  | cons p rest ih =>
    intro idx
    cases p with
    | mk q refAns => simp [run_eval_go, ih]

theorem run_eval_go_getElem? (backend : Nat → Nat → Except (List Char) (List Char))
    (stripThink : Bool) (maxRetries : Nat) :
    ∀ (pairs : List (List Char × List Char)) (idx i : Nat), i < pairs.length →
      ∃ q refAns, pairs[i]? = some (q, refAns) ∧
        (run_eval_go backend stripThink maxRetries idx pairs)[i]? =
          some { question_num := idx + i, question := q
                 model_ans := answerFor (backend (idx + i)) stripThink maxRetries
                 correct_ans := refAns } := by
  intro pairs
  induction pairs with
  | nil => intro idx i h; simp at h
  | cons p rest ih =>
    intro idx i h
    cases p with
    | mk q refAns =>
      cases i with
      | zero => exact ⟨q, refAns, by simp, by simp [run_eval_go]⟩
      | succ i' =>
        have h' : i' < rest.length := by simpa using h
        obtain ⟨q', r', h1, h2⟩ := ih (idx + 1) i' h'
        refine ⟨q', r', by simpa using h1, ?_⟩
        have hx : idx + (i' + 1) = (idx + 1) + i' := by omega
        rw [show (run_eval_go backend stripThink maxRetries idx ((q, refAns) :: rest)) =
              ({ question_num := idx, question := q
                 model_ans := answerFor (backend idx) stripThink maxRetries
                 correct_ans := refAns } ::
                run_eval_go backend stripThink maxRetries (idx + 1) rest) from rfl]
        rw [List.getElem?_cons_succ, hx]
        exact h2

theorem attemptAnswer_all_fail (ask : Nat → Except (List Char) (List Char))
    (stripThink : Bool) :
    ∀ (attempts : List Nat) (aL : Nat) (initCause : Option (List Char)) (cause : Nat → List Char),
      (∀ a ∈ attempts, ask a = .error (cause a)) →
      attempts.getLast? = some aL →
      attemptAnswer ask stripThink attempts initCause = errorSentinel (cause aL) := by
  intro attempts
  induction attempts with
  | nil => intro aL init cause hfail hlast; simp at hlast
  | cons a rest ih =>
    intro aL init cause hfail hlast
    have hc : ask a = .error (cause a) := hfail a (List.mem_cons_self a rest)
    cases hrest : rest with
    | nil =>
      subst hrest
      have haL : aL = a := by simpa [List.getLast?] using hlast.symm
      subst haL
      simp [attemptAnswer, hc]
    | cons b bs =>
      have hne : rest ≠ [] := by rw [hrest]; simp
      rw [getLast?_cons_ne_nil a rest hne] at hlast
      have := ih aL (some (cause a)) cause
        (fun x hx => hfail x (List.mem_cons_of_mem a hx)) hlast
      rw [hrest] at this
      simpa [attemptAnswer, hc, hrest] using this

theorem range'_one_getLast? (n : Nat) (h : 1 ≤ n) :
    (List.range' 1 n).getLast? = some n := by
  induction n with
  | zero => omega
  | succ m ih =>
    rcases Nat.eq_or_lt_of_le h with h1 | h1
    · rw [← h1]; rfl
    · have hm : 1 ≤ m := by omega
      rw [List.range'_1_concat, List.getLast?_concat, Nat.add_comm]

/-- Claim C3: for every input question sequence and every pattern of backend
failures, the runner produces exactly one record per input question, in input
order, with `question_num` equal to the zero-based input index; and when every
attempt for a question fails, that question's recorded answer is the failure
sentinel `"ERROR: <cause>"` built from the last exception.  The embedding of
the per-question loop is total, reflecting that the `except` clause absorbs
every backend exception, so no exception escapes the run. -/
theorem C3_run_eval_shape (backend : Nat → Nat → Except (List Char) (List Char))
    (stripThink : Bool) (maxRetries : Nat) (pairs : List (List Char × List Char)) :
    (run_eval backend stripThink maxRetries pairs).length = pairs.length
    ∧ (∀ i, i < pairs.length →
        ((run_eval backend stripThink maxRetries pairs)[i]?.map AnswerRecord.question_num)
          = some i)
    ∧ (∀ i (cause : Nat → List Char), i < pairs.length → 1 ≤ maxRetries →
        (∀ a, 1 ≤ a → a ≤ maxRetries → backend i a = .error (cause a)) →
        ((run_eval backend stripThink maxRetries pairs)[i]?.map AnswerRecord.model_ans)
          = some (errorSentinel (cause maxRetries))) := by
  refine ⟨run_eval_go_length backend stripThink maxRetries pairs 0, ?_, ?_⟩
  · intro i hi
    obtain ⟨q, refAns, _, h2⟩ := run_eval_go_getElem? backend stripThink maxRetries pairs 0 i hi
    rw [run_eval, h2]
    show some (0 + i) = some i
    rw [Nat.zero_add]
  · intro i cause hi hretry hfail
    obtain ⟨q, refAns, _, h2⟩ := run_eval_go_getElem? backend stripThink maxRetries pairs 0 i hi
    rw [run_eval, h2]
    have hall : ∀ a ∈ List.range' 1 maxRetries, backend i a = .error (cause a) := by
      intro a ha
      rw [List.mem_range'_1] at ha
      exact hfail a ha.1 (by omega)
    have habc : answerFor (backend i) stripThink maxRetries
        = errorSentinel (cause maxRetries) := by
      rw [answerFor]
      exact attemptAnswer_all_fail (backend i) stripThink (List.range' 1 maxRetries)
        maxRetries none cause hall (range'_one_getLast? maxRetries hretry)
    show some (answerFor (backend (0 + i)) stripThink maxRetries)
        = some (errorSentinel (cause maxRetries))
    rw [Nat.zero_add, habc]

/-- Concrete backend for the claim-C3 witness: every call raises. -/
def c3Backend : Nat → Nat → Except (List Char) (List Char) :=
  fun _ _ => .error "boom".data

/-- Concrete question list for the claim-C3 witness. -/
def c3Pairs : List (List Char × List Char) := [("q".data, "a".data)]

/-- Occurrence of `pat` as a substring of `s` starting at index `i`. -/
def OccursAt (pat s : List Char) (i : Nat) : Prop :=
  pat.isPrefixOf (s.drop i) = true

instance occursAt_decidable (pat s : List Char) (i : Nat) : Decidable (OccursAt pat s i) := by
  unfold OccursAt
  infer_instance

theorem findFirst_eq_of (pat : List Char) :
    ∀ (s : List Char) (i : Nat), OccursAt pat s i → (∀ j, j < i → ¬ OccursAt pat s j) →
      findFirst pat s = some i := by
  intro s
  induction s with
  | nil =>
    intro i h1 h2
    have hp : pat.isPrefixOf ([] : List Char) = true := by
      unfold OccursAt at h1
      simpa using h1
    have hi : i = 0 := by
      by_contra hne
      exact h2 0 (by omega) (by unfold OccursAt; simpa using hp)
    subst hi
    have hpe : pat.isEmpty = true := by
      cases pat with
      | nil => rfl
      | cons a l => simp [List.isPrefixOf] at hp
    simp [findFirst, hpe]
  | cons ch rest ih =>
    intro i h1 h2
    cases i with
    | zero =>
      unfold OccursAt at h1
      rw [List.drop_zero] at h1
      show (if pat.isPrefixOf (ch :: rest) then some 0
            else (findFirst pat rest).map (· + 1)) = some 0
      rw [if_pos h1]
    | succ j =>
      have hnot : ¬ pat.isPrefixOf (ch :: rest) = true := by
        have := h2 0 (by omega)
        unfold OccursAt at this
        simpa using this
      have h1' : OccursAt pat rest j := by
        unfold OccursAt at h1 ⊢
        simpa [List.drop_succ_cons] using h1
      have h2' : ∀ k, k < j → ¬ OccursAt pat rest k := by
        intro k hk hOcc
        apply h2 (k + 1) (by omega)
        unfold OccursAt at hOcc ⊢
        simpa [List.drop_succ_cons] using hOcc
      show (if pat.isPrefixOf (ch :: rest) then some 0
            else (findFirst pat rest).map (· + 1)) = some (j + 1)
      rw [if_neg hnot, ih j h1' h2']
      rfl

theorem findLastLe_eq_of (pat s : List Char) :
    ∀ (n i : Nat), i ≤ n → OccursAt pat s i →
      (∀ j, i < j → j ≤ n → ¬ OccursAt pat s j) →
      findLastLe pat s n = some i := by
  intro n
  induction n with
  | zero =>
    intro i hin h1 h2
    have hi : i = 0 := by omega
    subst hi
    unfold OccursAt at h1
    rw [List.drop_zero] at h1
    show (if pat.isPrefixOf s then some 0 else none) = some 0
    rw [if_pos h1]
  | succ m ih =>
    intro i hin h1 h2
    by_cases hc : pat.isPrefixOf (s.drop (m + 1)) = true
    · have hi : i = m + 1 := by
        by_contra hne
        exact h2 (m + 1) (by omega) (le_refl _) hc
      subst hi
      show (if pat.isPrefixOf (s.drop (m + 1)) then some (m + 1)
            else findLastLe pat s m) = some (m + 1)
      rw [if_pos hc]
    · have hi : i ≤ m := by
        by_contra hgt
        have : i = m + 1 := by omega
        subst this
        exact hc h1
      show (if pat.isPrefixOf (s.drop (m + 1)) then some (m + 1)
            else findLastLe pat s m) = some i
      rw [if_neg hc]
      exact ih i hi h1 (fun j hj1 hj2 => h2 j hj1 (by omega))

theorem occursAt_append_middle (p pat tail : List Char) :
    OccursAt pat (p ++ (pat ++ tail)) p.length := by
  unfold OccursAt
  rw [List.drop_left, List.isPrefixOf_iff_prefix]
  exact List.prefix_append pat tail

/-- Claim C4 (amended): when the reasoning-strip rule is enabled, the runner
removes the single GREEDY match of the think pattern — everything from the
first opening marker through the last closing marker, plus one immediately
following newline if present — and then trims surrounding whitespace.  Text
before the first opening marker is preserved; spans after the first one are
not preserved (they fall inside the removed region).  Here `p` is the text
before the first opening marker (hypothesis `hp`: no opening marker starts in
`p`), `m` the text between the markers, and `r` the text after the LAST
closing marker (hypothesis `hr`: no closing marker starts after it). -/
theorem C4_strip_think_greedy (p m r : List Char)
    (hp : ∀ i, i < p.length → ¬ OccursAt tagOpen (p ++ tagOpen ++ m ++ tagClose ++ r) i)
    (hr : ∀ i, i < (p ++ tagOpen ++ m ++ tagClose ++ r).length + 1 →
        p.length + tagOpen.length + m.length < i →
        ¬ OccursAt tagClose (p ++ tagOpen ++ m ++ tagClose ++ r) i) :
    postprocessAnswer true (p ++ tagOpen ++ m ++ tagClose ++ r)
      = pyStrip (p ++ (if r.head? = some '\n' then r.tail else r)) := by
  have hsopen : p ++ tagOpen ++ m ++ tagClose ++ r
      = p ++ (tagOpen ++ (m ++ (tagClose ++ r))) := by
    simp [List.append_assoc]
  have hsclose : p ++ tagOpen ++ m ++ tagClose ++ r
      = (p ++ tagOpen ++ m) ++ (tagClose ++ r) := by
    simp [List.append_assoc]
  have hlenq : (p ++ tagOpen ++ m).length = p.length + tagOpen.length + m.length := by
    simp [List.length_append]
    omega
  have hfirst : findFirst tagOpen (p ++ tagOpen ++ m ++ tagClose ++ r) = some p.length := by
    apply findFirst_eq_of
    · rw [hsopen]
      exact occursAt_append_middle p tagOpen (m ++ (tagClose ++ r))
    · exact hp
  have hq_occ : OccursAt tagClose (p ++ tagOpen ++ m ++ tagClose ++ r)
      (p.length + tagOpen.length + m.length) := by
    rw [hsclose, ← hlenq]
    exact occursAt_append_middle (p ++ tagOpen ++ m) tagClose r
  have hslen : (p ++ tagOpen ++ m ++ tagClose ++ r).length
      = p.length + tagOpen.length + m.length + tagClose.length + r.length := by
    simp [List.length_append]
    omega
  have hlast : findLastLe tagClose (p ++ tagOpen ++ m ++ tagClose ++ r)
      (p ++ tagOpen ++ m ++ tagClose ++ r).length
      = some (p.length + tagOpen.length + m.length) := by
    apply findLastLe_eq_of
    · omega
    · exact hq_occ
    · intro j hj1 hj2
      exact hr j (by omega) hj1
  have htake : (p ++ tagOpen ++ m ++ tagClose ++ r).take p.length = p := by
    rw [hsopen]
    exact List.take_left p _
  have hdropE : (p ++ tagOpen ++ m ++ tagClose ++ r).drop
      (p.length + tagOpen.length + m.length + tagClose.length) = r := by
    have hB : (p ++ tagOpen ++ m ++ tagClose).length
        = p.length + tagOpen.length + m.length + tagClose.length := by
      simp [List.length_append]
      omega
    rw [← hB]
    exact List.drop_left (p ++ tagOpen ++ m ++ tagClose) r
  have hdropE1 : (p ++ tagOpen ++ m ++ tagClose ++ r).drop
      (p.length + tagOpen.length + m.length + tagClose.length + 1) = r.tail := by
    rw [show p.length + tagOpen.length + m.length + tagClose.length + 1
          = (p.length + tagOpen.length + m.length + tagClose.length) + 1 from rfl]
    rw [← List.drop_drop, hdropE, List.drop_one]
  rw [postprocessAnswer, if_pos rfl, stripThinkSub, hfirst, hlast]
  simp only
  rw [if_pos (by omega : p.length + tagOpen.length ≤ p.length + tagOpen.length + m.length)]
  simp only [hdropE, htake]
  by_cases hn : r.head? = some '\n'
  · rw [if_pos hn, if_pos hn, hdropE1]
  · rw [if_neg hn, if_neg hn, hdropE]

/-- Reasoning-strip transformation as claim C4 states it: remove the FIRST
occurrence of the marked span, matched NON-greedily (from the first opening
marker to the first closing marker after it), then trim surrounding
whitespace, preserving text before the first opening marker and any later
spans.  This definition follows the claim's words, not the source, and exists
only to be compared against the source's behaviour. -/
def stripThinkClaim (s : List Char) : List Char :=
  match findFirst tagOpen s with
  | none => pyStrip s
  | some i =>
    match findFirst tagClose (s.drop (i + tagOpen.length)) with
    | none => pyStrip s
    | some k =>
      pyStrip (s.take i ++ s.drop (i + tagOpen.length + k + tagClose.length))

/-- Concrete response text with two reasoning spans. -/
def c4Input : List Char := "a<think>x</think>b<think>y</think>c".data

/-- Claim C4 as stated is false: on a response with two reasoning spans, the
source's greedy pattern removes everything from the first opening marker to
the LAST closing marker (yielding `"ac"`), while the claim's non-greedy
first-occurrence rule would preserve the second span
(yielding `"ab<think>y</think>c"`). -/
theorem C4_counterexample :
    Evaluate.postprocessAnswer true c4Input = "ac".data
    ∧ stripThinkClaim c4Input = "ab<think>y</think>c".data
    ∧ Evaluate.postprocessAnswer true c4Input ≠ stripThinkClaim c4Input := by
  refine ⟨by decide, by decide, by decide⟩

theorem C4_strip_think_greedy_witness :
    Evaluate.postprocessAnswer true
        ("a".data ++ tagOpen ++ "x</think>b<think>y".data ++ tagClose ++ "c".data)
      = pyStrip ("a".data ++ (if ("c".data).head? = some '\n' then ("c".data).tail
          else "c".data)) :=
  C4_strip_think_greedy "a".data "x</think>b<think>y".data "c".data
    (by decide) (by decide)

theorem C3_run_eval_shape_witness :
    ((run_eval c3Backend false 2 c3Pairs)[0]?.map AnswerRecord.model_ans)
      = some (errorSentinel "boom".data) :=
  (C3_run_eval_shape c3Backend false 2 c3Pairs).2.2 0 (fun _ => "boom".data)
    (by decide) (by decide) (fun a _ _ => rfl)

end Evaluate

namespace Mcnemar

/-- Graded record as both comparators consume it: an optional `question_num`
(Python's `q.get("question_num")` / `'question_num' in q`) and an optional
`grade` string (`q.get('grade', '')`). -/
structure GradedItem where
  question_num : Option ℤ
  grade : Option (List Char)
deriving DecidableEq

/-- Python `str.upper` on the ASCII grade codes. -/
def pyToUpper (s : List Char) : List Char := s.map Char.toUpper

/-- Grade test `str(q.get('grade', '')).strip().upper() == 'T'`
(`calculate_mcnemar.py` lines 95-96, `calculate_b_c.py` lines 45-46). -/
def isMatchGrade (g : Option (List Char)) : Bool :=
  decide (pyToUpper (Evaluate.pyStrip (g.getD [])) = "T".data)

/-- Contingency counts `a`, `b`, `c`, `d` (non-negativity is by the type `ℕ`). -/
structure ContTable where
  a : ℕ
  b : ℕ
  c : ℕ
  d : ℕ
deriving DecidableEq

/-- One iteration of the counting loop (`calculate_mcnemar.py` lines 95-105,
`calculate_b_c.py` lines 45-55): classify the pair and increment one count.
In `calculate_mcnemar.py` the preceding identity check (lines 88-93) executes
`pass` — it has no effect and emits nothing — so it does not appear here. -/
def tally (acc : ContTable) (q1 q2 : GradedItem) : ContTable :=
  let m1 := isMatchGrade q1.grade
  let m2 := isMatchGrade q2.grade
  if m1 && m2 then { acc with a := acc.a + 1 }
  else if m1 && !m2 then { acc with b := acc.b + 1 }
  else if !m1 && m2 then { acc with c := acc.c + 1 }
  else { acc with d := acc.d + 1 }

/-- The whole counting loop, over the zipped pairs. -/
def countPairs (pairs : List (GradedItem × GradedItem)) : ContTable :=
  pairs.foldl (fun acc pq => tally acc pq.1 pq.2) ⟨0, 0, 0, 0⟩

/-- Vocabulary of warnings the flexible comparator could print.  The source
only ever prints the length-mismatch warning (`calculate_mcnemar.py` line 76);
`identityMismatch` is in the vocabulary so that its absence is expressible. -/
inductive ComparatorWarning
  | lengthMismatch (n1 n2 : ℕ)
  | identityMismatch (q1 q2 : Option ℤ)
deriving DecidableEq

/-- Recognizer for identity-mismatch warnings. -/
def isIdentityWarning : ComparatorWarning → Bool
  | .identityMismatch _ _ => true
  | _ => false

/-- Model of `calculate_mcnemar_values` from `calculate_mcnemar.py` (lines 66-112),
with the printed warnings modelled as an explicit list.  On a length mismatch
it warns and truncates both lists to the shorter length (lines 75-80); the
relaxed identity check tolerates mismatches with `pass` (lines 88-93). -/
def calculate_mcnemar_values (results1 results2 : List GradedItem) :
    List ComparatorWarning × ContTable :=
  if results1.length ≠ results2.length then
    ([ComparatorWarning.lengthMismatch results1.length results2.length],
      countPairs ((results1.take (min results1.length results2.length)).zip
        (results2.take (min results1.length results2.length))))
  else
    ([], countPairs (results1.zip results2))

/-- Model of `calculate_mcnemar_statistic` (`calculate_mcnemar.py` lines 114-118 and
`calculate_b_c.py` lines 60-63, textually identical): `0` when `b + c = 0`,
else `((abs(b - c) - 1) ** 2) / (b + c)`, modelled exactly over `ℚ`. -/
def calculate_mcnemar_statistic (b c : ℕ) : ℚ :=
  if b + c = 0 then 0
  else ((((b : ℤ) - (c : ℤ)).natAbs : ℚ) - 1) ^ 2 / ((b : ℚ) + (c : ℚ))

/-- Density of the chi-squared distribution with one degree of freedom. -/
noncomputable def chi2_pdf_one (t : ℝ) : ℝ :=
  if 0 < t then Real.exp (-(t / 2)) / Real.sqrt (2 * Real.pi * t) else 0

/-- CDF of the chi-squared distribution with one degree of freedom:
`chi2.cdf(x, df=1)` from `scipy.stats`. -/
noncomputable def chi2_cdf_one (x : ℝ) : ℝ := ∫ t in Set.Iic x, chi2_pdf_one t

/-- Model of `p_value = 1 - chi2.cdf(chi_sq, df=1)` (`calculate_mcnemar.py` line 157,
`calculate_b_c.py` line 75). -/
noncomputable def p_value (chiSq : ℚ) : ℝ := 1 - chi2_cdf_one (chiSq : ℝ)

/-- Decision rule `p_value < 0.05` (`calculate_mcnemar.py` line 167). -/
def significant (p : ℝ) : Prop := p < 0.05

end Mcnemar

namespace CalcBC

open Mcnemar

/-- Failures raised by the minimal comparator in `calculate_b_c.py`:
a length mismatch (line 38) or a `question_num` mismatch (line 43). -/
inductive BcError
  | lengthMismatch (n1 n2 : ℕ)
  | questionNumMismatch
deriving DecidableEq

/-- Counting loop of `calculate_b_c.py` (lines 41-55): raise on the first
aligned pair whose `question_num`s differ, otherwise tally the pair. -/
def countAligned : List (GradedItem × GradedItem) → ContTable → Except BcError ContTable
  | [], acc => .ok acc
  | (q1, q2) :: rest, acc =>
    if q1.question_num ≠ q2.question_num then .error .questionNumMismatch
    else countAligned rest (tally acc q1 q2)

/-- Model of `calculate_mcnemar_values` from `calculate_b_c.py` (lines 34-57): a
length mismatch is fatal (no truncation), misaligned `question_num`s are
fatal, otherwise the contingency table is returned. -/
def calculate_mcnemar_values (results1 results2 : List GradedItem) :
    Except BcError ContTable :=
  if results1.length ≠ results2.length then
    .error (.lengthMismatch results1.length results2.length)
  else countAligned (results1.zip results2) ⟨0, 0, 0, 0⟩

end CalcBC

namespace Mcnemar

theorem chi2_cdf_one_zero : chi2_cdf_one 0 = 0 := by
  unfold chi2_cdf_one
  have h : Set.EqOn chi2_pdf_one (fun _ => (0 : ℝ)) (Set.Iic 0) := by
    intro t ht
    unfold chi2_pdf_one
    exact if_neg (not_lt.mpr ht)
  rw [MeasureTheory.setIntegral_congr_fun measurableSet_Iic h]
  simp

theorem p_value_zero : p_value 0 = 1 := by
  unfold p_value
  rw [show ((0 : ℚ) : ℝ) = 0 from by norm_num, chi2_cdf_one_zero]
  norm_num

/-- Claim C1: for all `b c : ℕ` the McNemar statistic is `0` when `b + c = 0`
and `((|b - c| - 1)^2) / (b + c)` otherwise (continuity correction);
consequently for `b = c = 0` the statistic is `0`, the derived p-value is `1`,
and the comparison is not significant. -/
theorem C1_mcnemar_statistic (b c : ℕ) :
    (b + c = 0 → calculate_mcnemar_statistic b c = 0)
    ∧ (b + c ≠ 0 →
        calculate_mcnemar_statistic b c
          = (|(b : ℚ) - (c : ℚ)| - 1) ^ 2 / ((b : ℚ) + (c : ℚ)))
    ∧ (b = 0 → c = 0 →
        calculate_mcnemar_statistic b c = 0
        ∧ p_value (calculate_mcnemar_statistic b c) = 1
        ∧ ¬ significant (p_value (calculate_mcnemar_statistic b c))) := by
  refine ⟨?_, ?_, ?_⟩
  · intro h
    unfold calculate_mcnemar_statistic
    rw [if_pos h]
  · intro h
    unfold calculate_mcnemar_statistic
    rw [if_neg h]
    have habs : (((b : ℤ) - (c : ℤ)).natAbs : ℚ) = |(b : ℚ) - (c : ℚ)| := by
      rw [Int.cast_natAbs]
      push_cast
      ring_nf
    rw [habs]
  · intro hb hc
    subst hb
    subst hc
    have h0 : calculate_mcnemar_statistic 0 0 = 0 := rfl
    refine ⟨h0, ?_, ?_⟩
    · rw [h0, p_value_zero]
    · rw [h0, p_value_zero]
      unfold significant
      norm_num

theorem C1_mcnemar_statistic_witness :
    calculate_mcnemar_statistic 0 0 = 0
    ∧ p_value (calculate_mcnemar_statistic 0 0) = 1
    ∧ ¬ significant (p_value (calculate_mcnemar_statistic 0 0)) :=
  (C1_mcnemar_statistic 0 0).2.2 rfl rfl

/-- Graded item with `question_num = 0` and grade `"T"`. -/
def sampleT : GradedItem := ⟨some 0, some "T".data⟩

/-- Graded item with `question_num = 1` and grade `"F"`. -/
def sampleF : GradedItem := ⟨some 1, some "F".data⟩

/-- Graded item with `question_num = 0` and grade `"F"`. -/
def sampleF0 : GradedItem := ⟨some 0, some "F".data⟩

end Mcnemar

/-- Claim C5 as stated is false: the repository's minimal comparator
(`calculate_b_c.py` lines 37-38) REJECTS a length mismatch instead of
truncating and warning — here concretely on inputs of lengths 1 and 2. -/
theorem C5_counterexample :
    CalcBC.calculate_mcnemar_values [Mcnemar.sampleT] [Mcnemar.sampleT, Mcnemar.sampleF]
      = .error (.lengthMismatch 1 2) := rfl

/-- Claim C5 (amended): on sequences of different lengths the flexible
comparator (`calculate_mcnemar.py`) truncates both to the shorter length
before pairing, surfaces exactly the length-mismatch warning, and still
produces a result; the minimal comparator (`calculate_b_c.py`) instead
rejects the comparison with a length-mismatch error. -/
theorem C5_length_mismatch (r1 r2 : List Mcnemar.GradedItem)
    (h : r1.length ≠ r2.length) :
    (Mcnemar.calculate_mcnemar_values r1 r2).1
        = [Mcnemar.ComparatorWarning.lengthMismatch r1.length r2.length]
    ∧ (Mcnemar.calculate_mcnemar_values r1 r2).2
        = (Mcnemar.calculate_mcnemar_values
            (r1.take (min r1.length r2.length)) (r2.take (min r1.length r2.length))).2
    ∧ CalcBC.calculate_mcnemar_values r1 r2
        = .error (.lengthMismatch r1.length r2.length) := by
  have hmin1 : (r1.take (min r1.length r2.length)).length = min r1.length r2.length := by
    rw [List.length_take]
    omega
  have hmin2 : (r2.take (min r1.length r2.length)).length = min r1.length r2.length := by
    rw [List.length_take]
    omega
  refine ⟨?_, ?_, ?_⟩
  · unfold Mcnemar.calculate_mcnemar_values
    rw [if_pos h]
  · unfold Mcnemar.calculate_mcnemar_values
    rw [if_pos h, if_neg (by rw [hmin1, hmin2]; omega)]
  · unfold CalcBC.calculate_mcnemar_values
    rw [if_pos h]

theorem C5_length_mismatch_witness :
    (Mcnemar.calculate_mcnemar_values [Mcnemar.sampleT] [Mcnemar.sampleT, Mcnemar.sampleF]).1
        = [Mcnemar.ComparatorWarning.lengthMismatch 1 2]
    ∧ (Mcnemar.calculate_mcnemar_values [Mcnemar.sampleT] [Mcnemar.sampleT, Mcnemar.sampleF]).2
        = (Mcnemar.calculate_mcnemar_values [Mcnemar.sampleT] [Mcnemar.sampleT]).2
    ∧ CalcBC.calculate_mcnemar_values [Mcnemar.sampleT] [Mcnemar.sampleT, Mcnemar.sampleF]
        = .error (.lengthMismatch 1 2) :=
  C5_length_mismatch [Mcnemar.sampleT] [Mcnemar.sampleT, Mcnemar.sampleF] (by decide)

namespace Mcnemar

/-- Forgetting the identity key of a graded item (its grade is kept). -/
def stripNum (g : GradedItem) : GradedItem := { g with question_num := none }

theorem countPairs_stripNum (pairs : List (GradedItem × GradedItem)) :
    countPairs (pairs.map (Prod.map stripNum stripNum)) = countPairs pairs := by
  unfold countPairs
  rw [List.foldl_map]
  rfl

theorem countPairs_zip_stripNum (a b : List GradedItem) :
    countPairs ((a.map stripNum).zip (b.map stripNum)) = countPairs (a.zip b) := by
  rw [List.zip_map, countPairs_stripNum]

end Mcnemar

/-- Claim C6 as stated is false: in relaxed mode an aligned pair whose
`question_num`s are both present and differ produces NO warning — the branch
at `calculate_mcnemar.py` lines 90-93 is `pass`.  Concretely, pairing an item
numbered 0 with an item numbered 1 yields an empty warning list. -/
theorem C6_counterexample :
    Mcnemar.sampleT.question_num.isSome = true
    ∧ Mcnemar.sampleF.question_num.isSome = true
    ∧ Mcnemar.sampleT.question_num ≠ Mcnemar.sampleF.question_num
    ∧ (Mcnemar.calculate_mcnemar_values [Mcnemar.sampleT] [Mcnemar.sampleF]).1 = [] := by
  refine ⟨rfl, rfl, by decide, rfl⟩

/-- Claim C6 (amended): in relaxed alignment mode identity mismatches are
tolerated SILENTLY: the comparator never emits an identity-mismatch warning,
and its counts do not depend on the `question_num` fields at all (stripping
every identity key leaves the result unchanged). -/
theorem C6_relaxed_silent (r1 r2 : List Mcnemar.GradedItem) :
    ((Mcnemar.calculate_mcnemar_values r1 r2).1.any Mcnemar.isIdentityWarning) = false
    ∧ (Mcnemar.calculate_mcnemar_values r1 r2).2
        = (Mcnemar.calculate_mcnemar_values
            (r1.map Mcnemar.stripNum) (r2.map Mcnemar.stripNum)).2 := by
  constructor
  · unfold Mcnemar.calculate_mcnemar_values
    by_cases h : r1.length = r2.length
    · rw [if_neg (by omega)]
      rfl
    · rw [if_pos (by omega)]
      rfl
  · unfold Mcnemar.calculate_mcnemar_values
    by_cases h : r1.length = r2.length
    · rw [if_neg (by omega), if_neg (by rw [List.length_map, List.length_map]; omega)]
      exact (Mcnemar.countPairs_zip_stripNum r1 r2).symm
    · rw [if_pos (by omega), if_pos (by rw [List.length_map, List.length_map]; omega)]
      rw [List.length_map, List.length_map]
      rw [show (r1.map Mcnemar.stripNum).take (min r1.length r2.length)
            = (r1.take (min r1.length r2.length)).map Mcnemar.stripNum from
          (List.map_take Mcnemar.stripNum r1 (min r1.length r2.length)).symm]
      rw [show (r2.map Mcnemar.stripNum).take (min r1.length r2.length)
            = (r2.take (min r1.length r2.length)).map Mcnemar.stripNum from
          (List.map_take Mcnemar.stripNum r2 (min r1.length r2.length)).symm]
      exact (Mcnemar.countPairs_zip_stripNum _ _).symm

/-- Claim C7 as stated is false: on two empty inputs neither comparator fails
with an empty-input error — no such error exists in the code; both return a
normal result record with all four counts zero. -/
theorem C7_counterexample :
    Mcnemar.calculate_mcnemar_values [] [] = ([], ⟨0, 0, 0, 0⟩)
    ∧ CalcBC.calculate_mcnemar_values [] [] = .ok ⟨0, 0, 0, 0⟩ := ⟨rfl, rfl⟩

/-- Claim C7 (amended): a comparison whose two input sequences contain zero
usable records does NOT fail: both comparators produce a result record with
`a = b = c = d = 0`, from which the statistic is `0` and the p-value `1`. -/
theorem C7_empty_input (r1 r2 : List Mcnemar.GradedItem)
    (h1 : r1 = []) (h2 : r2 = []) :
    Mcnemar.calculate_mcnemar_values r1 r2 = ([], ⟨0, 0, 0, 0⟩)
    ∧ CalcBC.calculate_mcnemar_values r1 r2 = .ok ⟨0, 0, 0, 0⟩
    ∧ Mcnemar.calculate_mcnemar_statistic 0 0 = 0
    ∧ Mcnemar.p_value (Mcnemar.calculate_mcnemar_statistic 0 0) = 1 := by
  subst h1
  subst h2
  refine ⟨rfl, rfl, rfl, ?_⟩
  rw [show Mcnemar.calculate_mcnemar_statistic 0 0 = 0 from rfl, Mcnemar.p_value_zero]

theorem C7_empty_input_witness :
    Mcnemar.calculate_mcnemar_values [] [] = ([], ⟨0, 0, 0, 0⟩)
    ∧ CalcBC.calculate_mcnemar_values [] [] = .ok ⟨0, 0, 0, 0⟩
    ∧ Mcnemar.calculate_mcnemar_statistic 0 0 = 0
    ∧ Mcnemar.p_value (Mcnemar.calculate_mcnemar_statistic 0 0) = 1 :=
  C7_empty_input [] [] rfl rfl

namespace Mcnemar

theorem tally_total (acc : ContTable) (q1 q2 : GradedItem) :
    (tally acc q1 q2).a + (tally acc q1 q2).b + (tally acc q1 q2).c + (tally acc q1 q2).d
      = acc.a + acc.b + acc.c + acc.d + 1 := by
  unfold tally
  by_cases h1 : isMatchGrade q1.grade = true <;>
    by_cases h2 : isMatchGrade q2.grade = true <;>
      simp [h1, h2] <;> omega

theorem foldl_tally_total :
    ∀ (pairs : List (GradedItem × GradedItem)) (acc : ContTable),
      (pairs.foldl (fun acc pq => tally acc pq.1 pq.2) acc).a
        + (pairs.foldl (fun acc pq => tally acc pq.1 pq.2) acc).b
        + (pairs.foldl (fun acc pq => tally acc pq.1 pq.2) acc).c
        + (pairs.foldl (fun acc pq => tally acc pq.1 pq.2) acc).d
      = acc.a + acc.b + acc.c + acc.d + pairs.length := by
  intro pairs
  induction pairs with
  | nil => intro acc; simp
  | cons pq rest ih =>
    intro acc
    rw [List.foldl_cons]
    rw [ih (tally acc pq.1 pq.2)]
    rw [tally_total]
    simp
    omega

theorem countPairs_total (pairs : List (GradedItem × GradedItem)) :
    (countPairs pairs).a + (countPairs pairs).b + (countPairs pairs).c + (countPairs pairs).d
      = pairs.length := by
  unfold countPairs
  rw [foldl_tally_total]
  simp

end Mcnemar

namespace CalcBC

open Mcnemar

theorem countAligned_total :
    ∀ (pairs : List (GradedItem × GradedItem)) (acc t : ContTable),
      countAligned pairs acc = .ok t →
      t.a + t.b + t.c + t.d = acc.a + acc.b + acc.c + acc.d + pairs.length := by
  intro pairs
  induction pairs with
  | nil =>
    intro acc t h
    have ht : t = acc := by
      simpa [countAligned] using h.symm
    subst ht
    simp
  | cons pq rest ih =>
    intro acc t h
    rcases pq with ⟨q1, q2⟩
    by_cases hq : q1.question_num = q2.question_num
    · have hstep : countAligned ((q1, q2) :: rest) acc
          = countAligned rest (tally acc q1 q2) := by
        show (if q1.question_num ≠ q2.question_num
              then Except.error BcError.questionNumMismatch
              else countAligned rest (tally acc q1 q2))
            = countAligned rest (tally acc q1 q2)
        rw [if_neg (by simp [hq])]
      rw [hstep] at h
      rw [ih (tally acc q1 q2) t h, tally_total]
      simp
      omega
    · exfalso
      have hstep : countAligned ((q1, q2) :: rest) acc
          = .error .questionNumMismatch := by
        show (if q1.question_num ≠ q2.question_num
              then Except.error BcError.questionNumMismatch
              else countAligned rest (tally acc q1 q2))
            = Except.error BcError.questionNumMismatch
        rw [if_pos hq]
      rw [hstep] at h
      exact Except.noConfusion h

end CalcBC

/-- Claim C8: for every pair of graded input sequences, the contingency counts
satisfy `a + b + c + d = min (len set1) (len set2)` — for the flexible
comparator unconditionally, and for the minimal comparator whenever it
produces a table.  Each count is non-negative by its type `ℕ`. -/
theorem C8_contingency_invariant (r1 r2 : List Mcnemar.GradedItem) :
    ((Mcnemar.calculate_mcnemar_values r1 r2).2.a
      + (Mcnemar.calculate_mcnemar_values r1 r2).2.b
      + (Mcnemar.calculate_mcnemar_values r1 r2).2.c
      + (Mcnemar.calculate_mcnemar_values r1 r2).2.d)
      = min r1.length r2.length
    ∧ (∀ t : Mcnemar.ContTable, CalcBC.calculate_mcnemar_values r1 r2 = .ok t →
        t.a + t.b + t.c + t.d = min r1.length r2.length) := by
  constructor
  · unfold Mcnemar.calculate_mcnemar_values
    by_cases h : r1.length = r2.length
    · rw [if_neg (by omega)]
      rw [show (([] : List Mcnemar.ComparatorWarning),
            Mcnemar.countPairs (r1.zip r2)).2 = Mcnemar.countPairs (r1.zip r2) from rfl]
      rw [Mcnemar.countPairs_total, List.length_zip]
    · rw [if_pos (by omega)]
      rw [show ([Mcnemar.ComparatorWarning.lengthMismatch r1.length r2.length],
            Mcnemar.countPairs ((r1.take (min r1.length r2.length)).zip
              (r2.take (min r1.length r2.length)))).2
          = Mcnemar.countPairs ((r1.take (min r1.length r2.length)).zip
              (r2.take (min r1.length r2.length))) from rfl]
      rw [Mcnemar.countPairs_total, List.length_zip, List.length_take, List.length_take]
      omega
  · intro t ht
    unfold CalcBC.calculate_mcnemar_values at ht
    by_cases h : r1.length = r2.length
    · rw [if_neg (by omega)] at ht
      have := CalcBC.countAligned_total (r1.zip r2) ⟨0, 0, 0, 0⟩ t ht
      rw [this, List.length_zip]
      simp
    · rw [if_pos (by omega)] at ht
      exact Except.noConfusion ht

theorem C8_contingency_invariant_witness :
    ((Mcnemar.calculate_mcnemar_values [Mcnemar.sampleT] [Mcnemar.sampleF0]).2.a
      + (Mcnemar.calculate_mcnemar_values [Mcnemar.sampleT] [Mcnemar.sampleF0]).2.b
      + (Mcnemar.calculate_mcnemar_values [Mcnemar.sampleT] [Mcnemar.sampleF0]).2.c
      + (Mcnemar.calculate_mcnemar_values [Mcnemar.sampleT] [Mcnemar.sampleF0]).2.d)
      = min 1 1
    ∧ ((⟨0, 1, 0, 0⟩ : Mcnemar.ContTable).a + (⟨0, 1, 0, 0⟩ : Mcnemar.ContTable).b
      + (⟨0, 1, 0, 0⟩ : Mcnemar.ContTable).c + (⟨0, 1, 0, 0⟩ : Mcnemar.ContTable).d)
      = min 1 1 :=
  ⟨(C8_contingency_invariant [Mcnemar.sampleT] [Mcnemar.sampleF0]).1,
    (C8_contingency_invariant [Mcnemar.sampleT] [Mcnemar.sampleF0]).2 ⟨0, 1, 0, 0⟩ rfl⟩

namespace Pareto

/-- Point consumed by the frontier engine: the cost axis `gpu_hours` and the
accuracy percentage, the two fields `is_pareto_optimal` reads
(`pareto_analysis.py` lines 94-95 and 112).  Python floats are modelled
exactly over `ℚ`. -/
structure RunPoint where
  gpu_hours : ℚ
  accuracy : ℚ
deriving DecidableEq

instance : Inhabited RunPoint := ⟨⟨0, 0⟩⟩

/-- Point `m2` dominates `m1`: strictly less gpu time AND strictly higher accuracy
(`pareto_analysis.py` line 112). -/
def dominatesB (m2 m1 : RunPoint) : Bool :=
  decide (m2.gpu_hours < m1.gpu_hours) && decide (m1.accuracy < m2.accuracy)

/-- Model of `is_pareto_optimal` (`pareto_analysis.py` lines 101-116): one flag per
index `i`, true iff no index `j ≠ i` holds a point dominating point `i`
(the inner loop with early exit is `List.any`). -/
def is_pareto_optimal (models : List RunPoint) : List Bool :=
  (List.range models.length).map (fun i =>
    !((List.range models.length).any (fun j =>
      (!decide (i = j)) && dominatesB (models.getD j default) (models.getD i default))))

/-- Dominance as a proposition. -/
def Dominates (y x : RunPoint) : Prop :=
  y.gpu_hours < x.gpu_hours ∧ x.accuracy < y.accuracy

/-- Point `x` is dominated by some member of `l`. -/
def DominatedIn (l : List RunPoint) (x : RunPoint) : Prop :=
  ∃ y ∈ l, Dominates y x

instance dominates_decidable (y x : RunPoint) : Decidable (Dominates y x) := by
  unfold Dominates
  infer_instance

instance dominatedIn_decidable (l : List RunPoint) (x : RunPoint) :
    Decidable (DominatedIn l x) := by
  unfold DominatedIn
  infer_instance

theorem is_pareto_length (l : List RunPoint) :
    (is_pareto_optimal l).length = l.length := by
  unfold is_pareto_optimal
  rw [List.length_map, List.length_range]

theorem any_dominates_eq (l : List RunPoint) (i : Nat) (h : i < l.length) :
    ((List.range l.length).any (fun j =>
        (!decide (i = j)) && dominatesB (l.getD j default) (l.getD i default)))
      = decide (DominatedIn l (l.getD i default)) := by
  rw [Bool.eq_iff_iff, List.any_eq_true, decide_eq_true_eq]
  constructor
  · rintro ⟨j, hjr, hcond⟩
    rw [List.mem_range] at hjr
    rw [Bool.and_eq_true] at hcond
    obtain ⟨hne, hdom⟩ := hcond
    unfold dominatesB at hdom
    rw [Bool.and_eq_true, decide_eq_true_eq, decide_eq_true_eq] at hdom
    refine ⟨l.getD j default, ?_, hdom.1, hdom.2⟩
    rw [List.getD_eq_getElem l default hjr]
    exact List.getElem_mem hjr
  · rintro ⟨y, hy, hdom⟩
    obtain ⟨j, hj, hjy⟩ := List.mem_iff_getElem.mp hy
    refine ⟨j, List.mem_range.mpr hj, ?_⟩
    rw [Bool.and_eq_true]
    have hyD : l.getD j default = y := by
      rw [List.getD_eq_getElem l default hj, hjy]
    constructor
    · rw [Bool.not_eq_true', decide_eq_false_iff_not]
      intro hij
      subst hij
      have hx : y = l.getD i default := by
        rw [← hyD]
      rw [← hx] at hdom
      exact lt_irrefl _ hdom.1
    · unfold dominatesB
      rw [Bool.and_eq_true, decide_eq_true_eq, decide_eq_true_eq, hyD]
      exact ⟨hdom.1, hdom.2⟩

theorem is_pareto_getElem? (l : List RunPoint) (i : Nat) (h : i < l.length) :
    (is_pareto_optimal l)[i]? = some (!decide (DominatedIn l (l.getD i default))) := by
  unfold is_pareto_optimal
  rw [List.getElem?_map, List.getElem?_range h, Option.map_some', any_dominates_eq l i h]

theorem dominatedIn_iff_other (l : List RunPoint) (x : RunPoint) :
    (∃ y ∈ l, y ≠ x ∧ y.gpu_hours < x.gpu_hours ∧ x.accuracy < y.accuracy)
      ↔ DominatedIn l x := by
  constructor
  · rintro ⟨y, hy, _, h1, h2⟩
    exact ⟨y, hy, h1, h2⟩
  · rintro ⟨y, hy, h1, h2⟩
    refine ⟨y, hy, ?_, h1, h2⟩
    intro he
    rw [he] at h1
    exact lt_irrefl _ h1

/-- Claim C2: a point's Pareto flag is true iff no other point in the same
group has strictly lower `gpu_hours` AND strictly higher accuracy (strict
inequality on both axes; ties never dominate).  The index form `j ≠ i` in the
source coincides with "no other point" because a point can never strictly
dominate an equal point. -/
theorem C2_pareto_flag (models : List RunPoint) (i : Nat) (h : i < models.length) :
    (is_pareto_optimal models)[i]? = some true
      ↔ ¬ ∃ y ∈ models, y ≠ models.getD i default
          ∧ y.gpu_hours < (models.getD i default).gpu_hours
          ∧ (models.getD i default).accuracy < y.accuracy := by
  rw [is_pareto_getElem? models i h]
  rw [Option.some.injEq, Bool.not_eq_true', decide_eq_false_iff_not]
  exact not_congr (dominatedIn_iff_other models (models.getD i default)).symm

/-- Concrete group from the spec's test vector:
`(gpu_hours, accuracy) = (1,50), (2,80), (3,80)`. -/
def paretoSample : List RunPoint := [⟨1, 50⟩, ⟨2, 80⟩, ⟨3, 80⟩]

theorem C2_pareto_flag_witness :
    (is_pareto_optimal paretoSample)[0]? = some true :=
  (C2_pareto_flag paretoSample 0 (by decide)).mpr (by decide)

end Pareto

namespace Pareto

theorem mem_eraseIdx_of_getElem (l : List RunPoint) (i j : Nat) (hj : j < l.length)
    (hne : j ≠ i) : l[j] ∈ l.eraseIdx i := by
  rcases Nat.lt_or_ge j i with hlt | hge
  · have h1 : (l.eraseIdx i)[j]? = l[j]? := List.getElem?_eraseIdx_of_lt l i j hlt
    rw [List.getElem?_eq_getElem hj] at h1
    exact List.getElem?_mem h1
  · have hji : i < j := by omega
    have h1 : (l.eraseIdx i)[j - 1]? = l[(j - 1) + 1]? :=
      List.getElem?_eraseIdx_of_ge l i (j - 1) (by omega)
    rw [show (j - 1) + 1 = j from by omega] at h1
    rw [List.getElem?_eq_getElem hj] at h1
    exact List.getElem?_mem h1

theorem dominatedIn_eraseIdx (l : List RunPoint) (i : Nat) (hi : i < l.length)
    (hd : DominatedIn l (l.getD i default)) (x : RunPoint) :
    DominatedIn (l.eraseIdx i) x ↔ DominatedIn l x := by
  constructor
  · rintro ⟨y, hy, hdom⟩
    exact ⟨y, List.eraseIdx_subset l i hy, hdom⟩
  · rintro ⟨y, hy, hdom⟩
    obtain ⟨j, hj, hjy⟩ := List.mem_iff_getElem.mp hy
    by_cases hji : j = i
    · subst hji
      obtain ⟨z, hz, hzdom⟩ := hd
      obtain ⟨j', hj', hj'z⟩ := List.mem_iff_getElem.mp hz
      have hyi : l.getD j default = y := by
        rw [List.getD_eq_getElem l default hj]
        exact hjy
      rw [hyi] at hzdom
      have hzx : Dominates z x := ⟨lt_trans hzdom.1 hdom.1, lt_trans hdom.2 hzdom.2⟩
      have hj'i : j' ≠ j := by
        intro he
        subst he
        have hzy : z = y := by
          rw [← hj'z, hjy]
        rw [hzy] at hzdom
        exact lt_irrefl _ hzdom.1
      refine ⟨z, ?_, hzx⟩
      rw [← hj'z]
      exact mem_eraseIdx_of_getElem l j j' hj' hj'i
    · refine ⟨y, ?_, hdom⟩
      rw [← hjy]
      exact mem_eraseIdx_of_getElem l i j hj hji

theorem getD_eraseIdx (l : List RunPoint) (i k : Nat) (hi : i < l.length)
    (hk : k < l.length - 1) :
    (l.eraseIdx i).getD k default = l.getD (if k < i then k else k + 1) default := by
  by_cases hlt : k < i
  · rw [if_pos hlt, List.getD_eq_getElem?_getD, List.getD_eq_getElem?_getD,
      List.getElem?_eraseIdx_of_lt l i k hlt]
  · rw [if_neg hlt, List.getD_eq_getElem?_getD, List.getD_eq_getElem?_getD,
      List.getElem?_eraseIdx_of_ge l i k (by omega)]

/-- Claim C9: removing a point that is not Pareto-optimal leaves the Pareto
flags of all remaining points unchanged — erasing a dominated index `i`
commutes with computing the flags. -/
theorem C9_remove_dominated (models : List RunPoint) (i : Nat) (hi : i < models.length)
    (hflag : (is_pareto_optimal models)[i]? = some false) :
    is_pareto_optimal (models.eraseIdx i) = (is_pareto_optimal models).eraseIdx i := by
  have hd : DominatedIn models (models.getD i default) := by
    rw [is_pareto_getElem? models i hi] at hflag
    have h1 := Option.some.inj hflag
    have h2 : decide (DominatedIn models (models.getD i default)) = true := by
      cases hdec : decide (DominatedIn models (models.getD i default)) with
      | true => rfl
      | false =>
        rw [hdec] at h1
        simp at h1
    exact of_decide_eq_true h2
  have hlenE : (models.eraseIdx i).length = models.length - 1 :=
    List.length_eraseIdx_of_lt hi
  apply List.ext_getElem?
  intro k
  by_cases hk : k < models.length - 1
  · have hkE : k < (models.eraseIdx i).length := by omega
    rw [is_pareto_getElem? _ k hkE]
    by_cases hlt : k < i
    · rw [List.getElem?_eraseIdx_of_lt _ i k hlt]
      rw [is_pareto_getElem? models k (by omega)]
      have hiff : DominatedIn (models.eraseIdx i) ((models.eraseIdx i).getD k default)
          ↔ DominatedIn models (models.getD k default) := by
        rw [getD_eraseIdx models i k hi hk, if_pos hlt]
        exact dominatedIn_eraseIdx models i hi hd _
      rw [decide_eq_decide.mpr hiff]
    · rw [List.getElem?_eraseIdx_of_ge _ i k (by omega)]
      rw [is_pareto_getElem? models (k + 1) (by omega)]
      have hiff : DominatedIn (models.eraseIdx i) ((models.eraseIdx i).getD k default)
          ↔ DominatedIn models (models.getD (k + 1) default) := by
        rw [getD_eraseIdx models i k hi hk, if_neg hlt]
        exact dominatedIn_eraseIdx models i hi hd _
      rw [decide_eq_decide.mpr hiff]
  · rw [List.getElem?_eq_none (by rw [is_pareto_length]; omega)]
    rw [List.getElem?_eq_none]
    rw [List.length_eraseIdx_of_lt (by rw [is_pareto_length]; exact hi), is_pareto_length]
    omega

/-- Concrete group whose third point `(3, 70)` is strictly dominated by
`(2, 80)` (lower cost AND higher accuracy). -/
def c9Sample : List RunPoint := [⟨1, 50⟩, ⟨2, 80⟩, ⟨3, 70⟩]

theorem C9_remove_dominated_witness :
    is_pareto_optimal (c9Sample.eraseIdx 2)
      = (is_pareto_optimal c9Sample).eraseIdx 2 :=
  C9_remove_dominated c9Sample 2 (by decide) (by decide)

end Pareto
